import Mathlib

/-!
Verification development for the ReviewReap repository.

The definitions below are shallow embeddings of the repository's source:
the SQL schema constraints (`database_schema.sql`, migrations), the Next.js
API route handlers (CSV upload/process, campaign proxy routes), and the
campaign-execution UI gating (`CampaignExecution` component).  Statuses and
messages are kept as the literal strings the code uses; database tables are
lists of rows; fallible external calls (Supabase auth, backend fetch, batch
inserts, JS date parsing) are explicit parameters or oracles.
-/

namespace ReviewReap

/-! ## Message retry with backoff (Phase 4 documentation)

Modelled from the spec: the backend retry implementation
(`backend/services/message_dispatcher.py`, `backend/services/email_service.py`)
is not among the provided source files; only the Phase 4 documentation
("Failed emails are retried up to 3 times", "Retry delays: 1min, 5min, 15min")
and the `messages.retry_count` migration describe it.  The model below follows
those words: each delivery failure either schedules one more retry with the
next backoff delay (at most 3 retries) or marks the message failed for good. -/

/-- A message as far as retrying is concerned: its delivery status string and
the `messages.retry_count` column added by migration 003. -/
structure RetryMsg where
  deliveryStatus : String
  retry_count : Nat
  deriving Repr, DecidableEq

/-- Modelled from the spec: backoff delay (in minutes) before retry number
`k + 1`, for `k` retries already used: 1min, 5min, 15min; none after that. -/
def retryBackoffMinutes : Nat → Option Nat
  | 0 => some 1
  | 1 => some 5
  | 2 => some 15
  | _ => none

/-- Modelled from the spec: what happens when delivery of a message fails.
If a retry is still available the message is queued again with the next
backoff delay and `retry_count` incremented; otherwise it is marked failed
permanently and no retry is scheduled. -/
def onDeliveryFailure (m : RetryMsg) : RetryMsg × Option Nat :=
  match retryBackoffMinutes m.retry_count with
  | some d => (⟨"queued", m.retry_count + 1⟩, some d)
  | none => (⟨"failed", m.retry_count⟩, none)

/-- State of a fresh message after `n` consecutive delivery failures, together
with the list of backoff delays scheduled along the way. -/
def failuresTrace : Nat → RetryMsg × List Nat
  | 0 => (⟨"queued", 0⟩, [])
  | n + 1 =>
    let p := failuresTrace n
    let q := onDeliveryFailure p.1
    (q.1, p.2 ++ q.2.toList)

/-! ## Campaign status and lifecycle gating

From `database_schema.sql` (campaigns.status CHECK constraint) and the
`CampaignExecution` component (`canStart`/`canPause`/`canResume`/`canStop`
and the conditional rendering of the action buttons). -/

/-- The status strings allowed by the `campaigns.status` CHECK constraint. -/
def campaignStatuses : List String :=
  ["draft", "scheduled", "active", "paused", "completed", "cancelled"]

/-- Whether a status string passes the `campaigns.status` CHECK constraint. -/
def campaignStatusOk (s : String) : Bool := campaignStatuses.contains s

/-- The channel strings allowed by the `campaigns.channel` CHECK constraint. -/
def channelOk (c : String) : Bool := ["whatsapp", "email", "both"].contains c

/-- A campaigns row, restricted to the CHECK-constrained columns. -/
structure CampaignRow where
  campStatus : String
  channel : String
  deriving Repr, DecidableEq

/-- Write operations on the campaigns table. -/
inductive CampaignsOp where
  | insertRow (r : CampaignRow)
  | updateStatus (i : Nat) (s : String)
  deriving Repr, DecidableEq

/-- Set the status of row `i` (no-op past the end of the table). -/
def setStatusAt : List CampaignRow → Nat → String → List CampaignRow
  | [], _, _ => []
  | r :: rs, 0, s => ⟨s, r.channel⟩ :: rs
  | r :: rs, n + 1, s => r :: setStatusAt rs n s

/-- Postgres semantics of one campaigns write: an insert or update violating a
CHECK constraint is rejected and leaves the table unchanged. -/
def applyCampaignsOp (t : List CampaignRow) : CampaignsOp → List CampaignRow
  | .insertRow r =>
    if campaignStatusOk r.campStatus && channelOk r.channel then t ++ [r] else t
  | .updateStatus i s =>
    if campaignStatusOk s then setStatusAt t i s else t

/-- `canStart` from `CampaignExecution` (line 202). -/
def canStart (s : String) : Bool := s = "draft" || s = "scheduled"

/-- `canPause` from `CampaignExecution` (line 203). -/
def canPause (s : String) : Bool := s = "active"

/-- `canResume` from `CampaignExecution` (line 204). -/
def canResume (s : String) : Bool := s = "paused"

/-- `canStop` from `CampaignExecution` (line 205). -/
def canStop (s : String) : Bool := s = "active" || s = "paused"

/-- The lifecycle action buttons rendered by `CampaignExecution` for a given
campaign status (each button is wrapped in `canX && (...)`). -/
def offeredActions (s : String) : List String :=
  (if canStart s then ["start"] else []) ++
    (if canPause s then ["pause"] else []) ++
      (if canResume s then ["resume"] else []) ++
        (if canStop s then ["stop"] else [])

/-! ## Events table and its foreign key to messages

From `database_schema.sql` lines 110-118 and migration 003: `events.message_id
UUID REFERENCES messages(id) ON DELETE CASCADE` (nullable), with an
`event_type` CHECK constraint. -/

/-- An events row: the (nullable) `message_id` foreign key and `event_type`. -/
structure EventRow where
  message_id : Option Nat
  event_type : String
  deriving Repr, DecidableEq

/-- The messages and events tables (message rows reduced to their ids). -/
structure MsgDb where
  msgs : List Nat
  events : List EventRow
  deriving Repr, DecidableEq

/-- The `events.event_type` CHECK constraint of `database_schema.sql`. -/
def eventTypeOk (t : String) : Bool :=
  ["sent", "delivered", "read", "failed", "bounced", "complained"].contains t

/-- Write operations touching the messages/events tables. -/
inductive DbOp where
  | insertMessage (m : Nat)
  | deleteMessage (m : Nat)
  | insertEvent (mid : Option Nat) (etype : String)
  deriving Repr, DecidableEq

/-- Postgres semantics of one write: primary keys are unique, an
`events.message_id` value must be NULL or reference an existing message
(FOREIGN KEY), and deleting a message cascades to its events rows. -/
def applyDbOp (db : MsgDb) : DbOp → MsgDb
  | .insertMessage m =>
    if db.msgs.contains m then db else { db with msgs := db.msgs ++ [m] }
  | .deleteMessage m =>
    { msgs := db.msgs.filter (fun x => x ≠ m),
      events := db.events.filter (fun e => e.message_id ≠ some m) }
  | .insertEvent mid t =>
    if (match mid with | none => true | some m => db.msgs.contains m)
        && eventTypeOk t then
      { db with events := db.events ++ [⟨mid, t⟩] }
    else db

/-! ## Reviews table rating constraint

From `database_schema.sql` line 151: `rating INTEGER NOT NULL CHECK
(rating >= 1 AND rating <= 5)`, plus `google_review_id VARCHAR(255) UNIQUE`. -/

/-- A reviews row, restricted to the constrained columns. -/
structure ReviewRow where
  rating : Int
  google_review_id : Option String
  deriving Repr, DecidableEq

/-- The `reviews.rating` CHECK constraint. -/
def ratingOk (r : Int) : Bool := 1 ≤ r && r ≤ 5

/-- The `reviews.google_review_id` UNIQUE constraint against a table. -/
def reviewIdFresh (t : List ReviewRow) (g : Option String) : Bool :=
  match g with
  | none => true
  | some s => t.all (fun row => row.google_review_id ≠ some s)

/-- INSERT into reviews: rejected (table unchanged) when a constraint fails. -/
def insertReview (t : List ReviewRow) (r : ReviewRow) :
    Except String (List ReviewRow) :=
  if ¬ ratingOk r.rating then .error "reviews_rating_check"
  else if ¬ reviewIdFresh t r.google_review_id then
    .error "reviews_google_review_id_key"
  else .ok (t ++ [r])

/-- Set the rating of row `i` (no-op past the end of the table). -/
def setRatingAt : List ReviewRow → Nat → Int → List ReviewRow
  | [], _, _ => []
  | r :: rs, 0, v => ⟨v, r.google_review_id⟩ :: rs
  | r :: rs, n + 1, v => r :: setRatingAt rs n v

/-- UPDATE of row `i`'s rating: rejected (table unchanged) when the CHECK
constraint fails on a row the update would actually touch. -/
def updateRating (t : List ReviewRow) (i : Nat) (v : Int) :
    Except String (List ReviewRow) :=
  if i < t.length then
    if ratingOk v then .ok (setRatingAt t i v) else .error "reviews_rating_check"
  else .ok t

/-- Write operations on the reviews table. -/
inductive ReviewOp where
  | ins (r : ReviewRow)
  | upd (i : Nat) (v : Int)
  deriving Repr, DecidableEq

/-- Apply one reviews write; a rejected statement leaves the table unchanged. -/
def applyReviewOp (t : List ReviewRow) : ReviewOp → List ReviewRow
  | .ins r => match insertReview t r with | .ok t' => t' | .error _ => t
  | .upd i v => match updateRating t i v with | .ok t' => t' | .error _ => t

/-! ## CSV processing (`pages/api/upload/csv/process/[id].ts`)

The row loop, the validation checks with their literal error messages, the
batched insert, and the final upload-job update.  JS `Date` parsing is an
explicit oracle (`parseDate`), as is the per-batch Supabase insert outcome
(`insertFail`). -/

/-- JS `String.prototype.trim`: strip leading and trailing whitespace. -/
def jsTrim (s : String) : String :=
  ⟨((s.toList.dropWhile Char.isWhitespace).reverse.dropWhile
      Char.isWhitespace).reverse⟩

/-- Single-character JS `String.prototype.split`, accumulator form. -/
def splitCharAux (sep : Char) : List Char → List Char → List (List Char)
  | [], acc => [acc.reverse]
  | c :: cs, acc =>
    if c = sep then acc.reverse :: splitCharAux sep cs []
    else splitCharAux sep cs (c :: acc)

/-- JS `s.split(sep)` for a one-character separator. -/
def jsSplit (s : String) (sep : Char) : List String :=
  (splitCharAux sep s.toList []).map (fun l => ⟨l⟩)

/-- JS `s.startsWith(p)`. -/
def jsStartsWith (s p : String) : Bool := p.toList.isPrefixOf s.toList

/-- JS `s.endsWith(p)`. -/
def jsEndsWith (s p : String) : Bool := p.toList.isSuffixOf s.toList

/-- JS `s.replace(/"/g, '')`: drop every double-quote character. -/
def removeQuotes (s : String) : String :=
  ⟨s.toList.filter (fun c => c ≠ '"')⟩

/-- A character matched by the `[^\s@]` class of the email regex. -/
def isLocalChar (c : Char) : Bool := !c.isWhitespace && c ≠ '@'

/-- The email-format test of line 158, the anchored regex on `[^\s@]+` / `@` /
`[^\s@]+` / `.` / `[^\s@]+`: some local chars, one `@`, then a non-space
`@`-free tail containing a dot that is neither its first nor last char. -/
def emailRegexTest (s : String) : Bool :=
  match s.toList.span isLocalChar with
  | (pre, '@' :: rest) =>
    !pre.isEmpty && !rest.isEmpty && rest.all isLocalChar
      && ((rest.drop 1).dropLast.contains '.')
  | _ => false

/-- The `CustomerData` object built from one CSV row; fields the code does not
declare but a column mapping could still set are kept in `extraAssigns`. -/
structure CustomerData where
  name : Option String := none
  phone : Option String := none
  email : Option String := none
  customer_id : Option String := none
  service_date : Option String := none
  google_review_link : Option String := none
  extraAssigns : List (String × String) := []
  deriving Repr, DecidableEq

/-- A row-level error entry as pushed onto the `errors` array. -/
structure RowError where
  row : Nat
  error : String
  deriving Repr, DecidableEq

/-- Lookup in the parsed `column_mapping` JSON object. -/
def mappingLookup (m : List (String × String)) (k : String) : Option String :=
  (m.find? (fun p => p.1 = k)).map (fun p => p.2)

/-- `(customerData as any)[mappedField] = value` for one mapped field. -/
def setCustomerField (c : CustomerData) (f v : String) : CustomerData :=
  if f = "name" then { c with name := some v }
  else if f = "phone" then { c with phone := some v }
  else if f = "email" then { c with email := some v }
  else if f = "customer_id" then { c with customer_id := some v }
  else if f = "service_date" then { c with service_date := some v }
  else if f = "google_review_link" then { c with google_review_link := some v }
  else { c with extraAssigns := c.extraAssigns ++ [(f, v)] }

/-- The `headers.forEach` loop of lines 135-146: map CSV columns to customer
fields, skipping `ignore` mappings, missing cells and cells that trim to the
empty string, and flag `hasRequiredData` when the name field gets set. -/
def buildCustomer (cm : List (String × String)) (headers rowArray : List String) :
    CustomerData × Bool :=
  headers.enum.foldl
    (fun acc hi =>
      match mappingLookup cm hi.2 with
      | some mappedField =>
        if mappedField ≠ "ignore" ∧ rowArray.getD hi.1 "" ≠ "" then
          let value := jsTrim (rowArray.getD hi.1 "")
          if value ≠ "" then
            (setCustomerField acc.1 mappedField value,
              if mappedField = "name" then true else acc.2)
          else acc
        else acc
      | none => acc)
    (⟨none, none, none, none, none, none, []⟩, false)

/-- Validation of one data row (lines 148-180): the name requirement, the
email-format check, and the service-date check through the `parseDate`
oracle standing for JS `new Date(...)` plus `toISOString`. -/
def processRow (cm : List (String × String)) (parseDate : String → Option String)
    (headers rowArray : List String) (rowNum : Nat) : Sum RowError CustomerData :=
  let b := buildCustomer cm headers rowArray
  if b.2 = false ∨ b.1.name = none then .inl ⟨rowNum, "Name is required"⟩
  else
    match b.1.email with
    | some e =>
      if emailRegexTest e = false then .inl ⟨rowNum, "Invalid email format"⟩
      else
        match b.1.service_date with
        | some d =>
          match parseDate d with
          | none => .inl ⟨rowNum, "Invalid service date format"⟩
          | some iso => .inr { b.1 with service_date := some iso }
        | none => .inr b.1
    | none =>
      match b.1.service_date with
      | some d =>
        match parseDate d with
        | none => .inl ⟨rowNum, "Invalid service date format"⟩
        | some iso => .inr { b.1 with service_date := some iso }
      | none => .inr b.1

/-- The mutable state of the CSV stream handler (lines 110-115). -/
structure ProcState where
  customers : List CustomerData
  errors : List RowError
  totalRows : Nat
  headers : List String
  isFirstRow : Bool
  deriving Repr, DecidableEq

/-- One `data` callback (lines 120-188): count the row, capture the header
row, and otherwise validate and collect the row or its error. -/
def procStep (cm : List (String × String)) (parseDate : String → Option String)
    (st : ProcState) (rowArray : List String) : ProcState :=
  let n := st.totalRows + 1
  if st.isFirstRow then ⟨st.customers, st.errors, n, rowArray, false⟩
  else
    match processRow cm parseDate st.headers rowArray n with
    | .inl e => ⟨st.customers, st.errors ++ [e], n, st.headers, st.isFirstRow⟩
    | .inr c => ⟨st.customers ++ [c], st.errors, n, st.headers, st.isFirstRow⟩

/-- The whole stream of `data` callbacks over the file's parsed rows. -/
def processCSVRows (cm : List (String × String))
    (parseDate : String → Option String) (rows : List (List String)) : ProcState :=
  rows.foldl (procStep cm parseDate) ⟨[], [], 0, [], true⟩

/-- Recursive per-row view of the stream: the customers and errors produced
from data rows numbered `n`, `n + 1`, ... -/
def procRows (cm : List (String × String)) (parseDate : String → Option String)
    (headers : List String) (n : Nat) :
    List (List String) → List CustomerData × List RowError
  | [] => ([], [])
  | r :: rs =>
    let rest := procRows cm parseDate headers (n + 1) rs
    match processRow cm parseDate headers r n with
    | .inl e => (rest.1, e :: rest.2)
    | .inr c => (c :: rest.1, rest.2)

/-- `customers.slice(i, i + batchSize)` chunks of the end handler's loop. -/
def toBatches (l : List CustomerData) : List (List CustomerData) :=
  if h : l = [] then [] else l.take 100 :: toBatches (l.drop 100)
termination_by l.length
decreasing_by
  simp only [List.length_drop]
  have : l.length ≠ 0 := fun hz => h (List.length_eq_zero.mp hz)
  omega

/-- The batch-insert loop (lines 195-215): `insertFail` gives the Supabase
error message for the batch starting at a given index, if that insert fails.
Returns `insertedCount` and the database-error entries pushed. -/
def runInserts (insertFail : Nat → Option String) :
    List (List CustomerData) → Nat → Nat × List RowError
  | [], _ => (0, [])
  | b :: bs, start =>
    let rest := runInserts insertFail bs (start + 100)
    match insertFail start with
    | some msg => (rest.1, ⟨start + 1, "Database error: " ++ msg⟩ :: rest.2)
    | none => (b.length + rest.1, rest.2)

/-- A write to persisted state performed by the process handler. -/
inductive DbWrite where
  | setJobProcessing (mapping : List (String × String))
  | insertCustomerBatch (batch : List CustomerData)
  | finalizeJob (finalStatus : String) (total_rows : Int) (processed_rows : Nat)
      (errs : Option (List RowError))
  | markJobFailedParse
  deriving Repr, DecidableEq

/-- The successful customer-batch inserts, in loop order. -/
def insertWrites (insertFail : Nat → Option String) :
    List (List CustomerData) → Nat → List DbWrite
  | [], _ => []
  | b :: bs, start =>
    let rest := insertWrites insertFail bs (start + 100)
    match insertFail start with
    | some _ => rest
    | none => .insertCustomerBatch b :: rest

/-- Total number of customers contained in the batch-insert writes. -/
def insertedTotal : List DbWrite → Nat
  | [] => 0
  | .insertCustomerBatch b :: ws => b.length + insertedTotal ws
  | _ :: ws => insertedTotal ws

/-- The upload job row as fetched by the process handler. -/
structure UploadJobRec where
  jobStatus : String
  deriving Repr, DecidableEq

/-- The inputs of one request to `pages/api/upload/csv/process/[id].ts`:
the HTTP method, whether the dynamic `id` segment is a single string, the
`authorization` header, the outcome of `supabase.auth.getUser` on its token,
the user's `org_id`, the fetched upload job, the parsed `column_mapping`
form field, and whether the CSV stream itself errors. -/
structure ProcessRequest where
  method : String
  hasValidId : Bool
  authHeader : Option String
  tokenValid : Bool
  orgId : Option String
  fetchedJob : Option UploadJobRec
  columnMappingField : Option (List (String × String))
  csvParseFails : Bool

/-- The `end` callback of the CSV stream (lines 189-238): batch inserts, the
final status computation and the closing upload-job update, together with the
initial status update to `processing`. -/
def processBody (cm : List (String × String)) (rows : List (List String))
    (parseDate : String → Option String) (insertFail : Nat → Option String) :
    (Nat × String) × List DbWrite :=
  let st := processCSVRows cm parseDate rows
  let batches := toBatches st.customers
  let ins := runInserts insertFail batches 0
  let allErrs := st.errors ++ ins.2
  let finalStat := if allErrs ≠ [] ∧ ins.1 = 0 then "failed" else "completed"
  ((200, "ok"),
    .setJobProcessing cm ::
      (insertWrites insertFail batches 0 ++
        [.finalizeJob finalStat ((st.totalRows : Int) - 1) ins.1
          (if allErrs ≠ [] then some allErrs else none)]))

/-- The process handler: its guard chain (405/400/401/401/400/404/400/400),
then the status update, the CSV pass, the batched inserts and the final
upload-job update; returns the HTTP response and the persisted writes. -/
def processHandler (req : ProcessRequest) (rows : List (List String))
    (parseDate : String → Option String) (insertFail : Nat → Option String) :
    (Nat × String) × List DbWrite :=
  if req.method ≠ "POST" then ((405, "Method not allowed"), [])
  else if ¬ req.hasValidId then ((400, "Invalid upload job ID"), [])
  else
    match req.authHeader with
    | none => ((401, "Unauthorized"), [])
    | some h =>
      if ¬ jsStartsWith h "Bearer " then ((401, "Unauthorized"), [])
      else if ¬ req.tokenValid then ((401, "Invalid token"), [])
      else if req.orgId = none then
        ((400, "User not associated with an organization"), [])
      else
        match req.fetchedJob with
        | none => ((404, "Upload job not found"), [])
        | some job =>
          if job.jobStatus ≠ "pending" then
            ((400, "Upload job already processed"), [])
          else
            match req.columnMappingField with
            | none => ((400, "Column mapping is required"), [])
            | some cm =>
              if req.csvParseFails then
                ((500, "Failed to parse CSV file"),
                  [.setJobProcessing cm, .markJobFailedParse])
              else processBody cm rows parseDate insertFail

/-! ## CSV upload route (`app/api/upload/csv/upload/route.ts`) -/

/-- `csvContent.split('\n').filter(line => line.trim())`. -/
def splitLines (content : String) : List String :=
  (jsSplit content '\n').filter (fun l => jsTrim l ≠ "")

/-- `line.split(',').map(v => v.trim().replace(/"/g, ''))`. -/
def parseFields (line : String) : List String :=
  (jsSplit line ',').map (fun h => removeQuotes (jsTrim h))

/-- The preview object returned to the client. -/
structure CSVPreview where
  headers : List String
  sample_rows : List (List String)
  total_rows : Nat
  deriving Repr, DecidableEq

/-- The upload job row created by the upload route. -/
structure CreatedJob where
  jobStatus : String
  total_rows : Nat
  headers : List String
  deriving Repr, DecidableEq

/-- Outcome of the upload route: an error response, or the success response
together with the upload job row that was inserted. -/
inductive UploadResult where
  | failure (code : Nat) (msg : String)
  | success (preview : CSVPreview) (job : CreatedJob)
  deriving Repr, DecidableEq

/-- The inputs of one request to the upload route: `authorization` header,
token check outcome, the user's `org_id`, the uploaded file (name and
content), and whether the upload-job insert errors. -/
structure UploadRequest where
  authHeader : Option String
  tokenValid : Bool
  orgId : Option String
  file : Option (String × String)
  insertFails : Bool

/-- The POST handler of the upload route: auth guards, file checks, the CSV
preview built from the non-blank lines, and the upload-job insert with
status `uploaded`. -/
def uploadHandlerPOST (req : UploadRequest) : UploadResult :=
  match req.authHeader with
  | none => .failure 401 "Unauthorized"
  | some h =>
    if ¬ jsStartsWith h "Bearer " then .failure 401 "Unauthorized"
    else if ¬ req.tokenValid then .failure 401 "Invalid token"
    else if req.orgId = none then
      .failure 400 "User not associated with an organization"
    else
      match req.file with
      | none => .failure 400 "No file uploaded"
      | some f =>
        if ¬ jsEndsWith f.1 ".csv" then .failure 400 "Only CSV files are allowed"
        else
          let lines := splitLines f.2
          if lines = [] then .failure 400 "CSV file is empty"
          else
            let hdrs := parseFields (lines.headD "")
            let samples := ((lines.drop 1).take 5).map parseFields
            if req.insertFails then .failure 500 "Failed to create upload job"
            else
              .success ⟨hdrs, samples, lines.length - 1⟩
                ⟨"uploaded", lines.length - 1, hdrs⟩

/-! ## Campaign proxy routes (`app/api/campaigns/[id]/...`) -/

/-- What the forwarded `fetch` to the FastAPI backend does: throw, or respond
with a status code and a body (`none` when the body fails to parse as JSON,
which makes `response.json()` throw). -/
inductive BackendOutcome where
  | threw
  | responded (code : Nat) (jsonBody : Option String)
  deriving Repr, DecidableEq

/-- The inputs of a proxy-route request.  The handlers never read the
`authorization` header ("Add auth headers when authentication is
implemented"); it is carried here only to state that fact. -/
structure ProxyRequest where
  authHeader : Option String
  queryString : String

/-- `response.ok`: status in the 200-299 range. -/
def statusOk (code : Nat) : Bool := 200 ≤ code && code < 300

/-- POST `/api/campaigns/[id]/pause`: forward to the backend; pass non-OK
responses through with their status; map a thrown fetch (or unparsable
body) to 500 with the fixed failure message. -/
def pauseRoutePOST (_req : ProxyRequest) (be : BackendOutcome) : Nat × String :=
  match be with
  | .threw => (500, "Failed to pause campaign")
  | .responded code body =>
    match body with
    | none => (500, "Failed to pause campaign")
    | some b => if statusOk code then (200, b) else (code, b)

/-- GET `/api/campaigns/[id]/messages`: same shape with its own message. -/
def messagesRouteGET (_req : ProxyRequest) (be : BackendOutcome) : Nat × String :=
  match be with
  | .threw => (500, "Failed to fetch campaign messages")
  | .responded code body =>
    match body with
    | none => (500, "Failed to fetch campaign messages")
    | some b => if statusOk code then (200, b) else (code, b)

/-! ## Helper lemmas -/

/-- After four or more consecutive failures the trace is stuck: the message is
failed with `retry_count` 3 and exactly the three backoff delays were used. -/
theorem failuresTrace_stuck (k : Nat) :
    failuresTrace (k + 4) = (⟨"failed", 3⟩, [1, 5, 15]) := by
  induction k with
  | zero => rfl
  | succ k ih =>
    have hstep : failuresTrace (k + 4 + 1) =
        ((onDeliveryFailure (failuresTrace (k + 4)).1).1,
          (failuresTrace (k + 4)).2 ++
            (onDeliveryFailure (failuresTrace (k + 4)).1).2.toList) := rfl
    rw [show k + 1 + 4 = k + 4 + 1 by omega, hstep, ih]
    rfl

/-- `setStatusAt` only writes the given status, so it preserves the CHECK
invariant whenever that status passes the check. -/
theorem setStatusAt_inv {s : String} (hs : campaignStatusOk s = true) :
    ∀ (t : List CampaignRow) (i : Nat),
      (∀ r ∈ t, campaignStatusOk r.campStatus = true) →
      ∀ r ∈ setStatusAt t i s, campaignStatusOk r.campStatus = true := by
  intro t
  induction t with
  | nil => intro i _ r hr; simp [setStatusAt] at hr
  | cons a as ih =>
    intro i hinv r hr
    cases i with
    | zero =>
      simp only [setStatusAt, List.mem_cons] at hr
      rcases hr with hr | hr
      · subst hr; simpa using hs
      · exact hinv r (List.mem_cons_of_mem _ hr)
    | succ n =>
      simp only [setStatusAt, List.mem_cons] at hr
      rcases hr with hr | hr
      · exact hinv r (hr ▸ List.mem_cons_self _ _)
      · exact ih n (fun x hx => hinv x (List.mem_cons_of_mem _ hx)) r hr

/-- Every campaigns write preserves the status CHECK invariant. -/
theorem applyCampaignsOp_inv (t : List CampaignRow) (op : CampaignsOp)
    (hinv : ∀ r ∈ t, campaignStatusOk r.campStatus = true) :
    ∀ r ∈ applyCampaignsOp t op, campaignStatusOk r.campStatus = true := by
  cases op with
  | insertRow r0 =>
    by_cases hc : campaignStatusOk r0.campStatus && channelOk r0.channel
    · intro r hr
      have hc' := hc
      simp only [Bool.and_eq_true] at hc'
      simp only [applyCampaignsOp, if_pos hc, List.mem_append,
        List.mem_singleton] at hr
      rcases hr with hr | hr
      · exact hinv r hr
      · exact hr ▸ hc'.1
    · simpa only [applyCampaignsOp, if_neg hc] using hinv
  | updateStatus i s =>
    by_cases hc : campaignStatusOk s
    · simpa only [applyCampaignsOp, if_pos hc] using setStatusAt_inv hc t i hinv
    · simpa only [applyCampaignsOp, if_neg hc] using hinv

/-- The status CHECK invariant holds along any sequence of campaigns writes. -/
theorem campaignsFold_inv (ops : List CampaignsOp) :
    ∀ t, (∀ r ∈ t, campaignStatusOk r.campStatus = true) →
      ∀ r ∈ ops.foldl applyCampaignsOp t, campaignStatusOk r.campStatus = true := by
  induction ops with
  | nil => intro t h; simpa using h
  | cons op ops ih =>
    intro t h
    exact ih _ (applyCampaignsOp_inv t op h)

/-- `setRatingAt` preserves the rating bounds when the new rating is in 1-5. -/
theorem setRatingAt_inv {v : Int} (hv : ratingOk v = true) :
    ∀ (t : List ReviewRow) (i : Nat),
      (∀ r ∈ t, 1 ≤ r.rating ∧ r.rating ≤ 5) →
      ∀ r ∈ setRatingAt t i v, 1 ≤ r.rating ∧ r.rating ≤ 5 := by
  have hv' : 1 ≤ v ∧ v ≤ 5 := by
    have := hv
    simp only [ratingOk, Bool.and_eq_true, decide_eq_true_eq] at this
    exact this
  intro t
  induction t with
  | nil => intro i _ r hr; simp [setRatingAt] at hr
  | cons a as ih =>
    intro i hinv r hr
    cases i with
    | zero =>
      simp only [setRatingAt, List.mem_cons] at hr
      rcases hr with hr | hr
      · subst hr; simpa using hv'
      · exact hinv r (List.mem_cons_of_mem _ hr)
    | succ n =>
      simp only [setRatingAt, List.mem_cons] at hr
      rcases hr with hr | hr
      · exact hinv r (hr ▸ List.mem_cons_self _ _)
      · exact ih n (fun x hx => hinv x (List.mem_cons_of_mem _ hx)) r hr

/-- Every reviews write preserves the rating bounds. -/
theorem applyReviewOp_inv (t : List ReviewRow) (op : ReviewOp)
    (hinv : ∀ r ∈ t, 1 ≤ r.rating ∧ r.rating ≤ 5) :
    ∀ r ∈ applyReviewOp t op, 1 ≤ r.rating ∧ r.rating ≤ 5 := by
  cases op with
  | ins r0 =>
    by_cases hr0 : ratingOk r0.rating
    · by_cases hg : reviewIdFresh t r0.google_review_id
      · intro r hr
        simp only [applyReviewOp, insertReview, hr0, hg, not_true_eq_false,
          Bool.not_eq_true, if_neg, if_false] at hr
        rcases List.mem_append.mp hr with h | h
        · exact hinv r h
        · have hb : 1 ≤ r0.rating ∧ r0.rating ≤ 5 := by
            simpa only [ratingOk, Bool.and_eq_true, decide_eq_true_eq] using hr0
          exact (List.mem_singleton.mp h) ▸ hb
      · simpa only [applyReviewOp, insertReview, hr0, hg, not_true_eq_false,
          Bool.not_eq_true, if_neg, if_false, if_true] using hinv
    · have hr0' : ratingOk r0.rating = false := by
        simpa using hr0
      simpa only [applyReviewOp, insertReview, hr0', Bool.not_eq_true,
        if_true] using hinv
  | upd i v =>
    by_cases hi : i < t.length
    · by_cases hv : ratingOk v
      · simpa only [applyReviewOp, updateRating, if_pos hi, if_pos hv] using
          setRatingAt_inv hv t i hinv
      · simpa only [applyReviewOp, updateRating, if_pos hi, if_neg hv] using hinv
    · simpa only [applyReviewOp, updateRating, if_neg hi] using hinv

/-- The rating bounds hold along any sequence of reviews writes. -/
theorem reviewsFold_inv (ops : List ReviewOp) :
    ∀ t, (∀ r ∈ t, 1 ≤ r.rating ∧ r.rating ≤ 5) →
      ∀ r ∈ ops.foldl applyReviewOp t, 1 ≤ r.rating ∧ r.rating ≤ 5 := by
  induction ops with
  | nil => intro t h; simpa using h
  | cons op ops ih =>
    intro t h
    exact ih _ (applyReviewOp_inv t op h)

/-- Non-null foreign-key integrity of `events.message_id` is preserved by
every messages/events write. -/
theorem applyDbOp_fk (db : MsgDb) (op : DbOp)
    (hinv : ∀ e ∈ db.events, ∀ m, e.message_id = some m → m ∈ db.msgs) :
    ∀ e ∈ (applyDbOp db op).events, ∀ m,
      e.message_id = some m → m ∈ (applyDbOp db op).msgs := by
  cases op with
  | insertMessage m0 =>
    by_cases hc : db.msgs.contains m0
    · simpa only [applyDbOp, if_pos hc] using hinv
    · intro e he m hm
      simp only [applyDbOp, if_neg hc] at he ⊢
      exact List.mem_append_left _ (hinv e he m hm)
  | deleteMessage m0 =>
    intro e he m hm
    simp only [applyDbOp, List.mem_filter] at he ⊢
    refine ⟨hinv e he.1 m hm, ?_⟩
    have : e.message_id ≠ some m0 := by simpa using he.2
    simp only [decide_eq_true_eq]
    intro hmm
    exact this (hmm ▸ hm)
  | insertEvent mid t =>
    by_cases hc : (match mid with
        | none => true
        | some m => db.msgs.contains m) && eventTypeOk t
    · intro e he m hm
      simp only [applyDbOp, if_pos hc] at he ⊢
      rcases List.mem_append.mp he with h | h
      · exact hinv e h m hm
      · have he' : e = ⟨mid, t⟩ := List.mem_singleton.mp h
        subst he'
        simp only at hm
        subst hm
        have hc' := hc
        simp only [Bool.and_eq_true] at hc'
        simpa using hc'.1
    · simpa only [applyDbOp, if_neg hc] using hinv

/-- Foreign-key integrity holds along any sequence of writes from an empty
database. -/
theorem dbFold_fk (ops : List DbOp) :
    ∀ db, (∀ e ∈ db.events, ∀ m, e.message_id = some m → m ∈ db.msgs) →
      ∀ e ∈ (ops.foldl applyDbOp db).events, ∀ m,
        e.message_id = some m → m ∈ (ops.foldl applyDbOp db).msgs := by
  induction ops with
  | nil => intro db h; simpa using h
  | cons op ops ih =>
    intro db h
    exact ih _ (applyDbOp_fk db op h)

/-- One `data` callback on a non-header state increments the row counter. -/
theorem procStep_totalRows (cm : List (String × String))
    (pd : String → Option String) (st : ProcState) (r : List String) :
    (procStep cm pd st r).totalRows = st.totalRows + 1 := by
  unfold procStep
  by_cases hf : st.isFirstRow = true
  · simp [hf]
  · cases hp : processRow cm pd st.headers r (st.totalRows + 1) <;> simp [hf, hp]

/-- The stream counts every row it reads. -/
theorem foldl_procStep_totalRows (cm : List (String × String))
    (pd : String → Option String) :
    ∀ (rows : List (List String)) (st : ProcState),
      (rows.foldl (procStep cm pd) st).totalRows = st.totalRows + rows.length := by
  intro rows
  induction rows with
  | nil => intro st; simp
  | cons r rs ih =>
    intro st
    rw [List.foldl_cons, ih, procStep_totalRows]
    simp only [List.length_cons]
    omega

/-- `totalRows` at the end of the stream is the number of rows read. -/
theorem processCSVRows_totalRows (cm : List (String × String))
    (pd : String → Option String) (rows : List (List String)) :
    (processCSVRows cm pd rows).totalRows = rows.length := by
  unfold processCSVRows
  rw [foldl_procStep_totalRows]
  simp

/-- Running the stream from a non-header state appends exactly the customers
and errors of `procRows`, numbering data rows from the current count. -/
theorem foldl_procStep_run (cm : List (String × String))
    (pd : String → Option String) (hdr : List String) :
    ∀ (rows : List (List String)) (cs : List CustomerData)
      (es : List RowError) (n : Nat),
      rows.foldl (procStep cm pd) ⟨cs, es, n, hdr, false⟩ =
        ⟨cs ++ (procRows cm pd hdr (n + 1) rows).1,
          es ++ (procRows cm pd hdr (n + 1) rows).2,
          n + rows.length, hdr, false⟩ := by
  intro rows
  induction rows with
  | nil => intro cs es n; simp [procRows]
  | cons r rs ih =>
    intro cs es n
    rw [List.foldl_cons]
    rcases hpr : processRow cm pd hdr r (n + 1) with e | c
    · rw [show procStep cm pd ⟨cs, es, n, hdr, false⟩ r =
          ⟨cs, es ++ [e], n + 1, hdr, false⟩ from by simp [procStep, hpr]]
      rw [ih]
      simp only [procRows, hpr, List.length_cons, List.append_assoc,
        List.singleton_append, ProcState.mk.injEq, List.cons_append]
      refine ⟨?_, ?_, ?_, ?_, ?_⟩ <;> first | trivial | omega
    · rw [show procStep cm pd ⟨cs, es, n, hdr, false⟩ r =
          ⟨cs ++ [c], es, n + 1, hdr, false⟩ from by simp [procStep, hpr]]
      rw [ih]
      simp only [procRows, hpr, List.length_cons, List.append_assoc,
        List.singleton_append, ProcState.mk.injEq, List.cons_append]
      refine ⟨?_, ?_, ?_, ?_, ?_⟩ <;> first | trivial | omega

/-- The whole stream on a header row followed by data rows. -/
theorem processCSVRows_cons (cm : List (String × String))
    (pd : String → Option String) (hdr : List String)
    (rows : List (List String)) :
    processCSVRows cm pd (hdr :: rows) =
      ⟨(procRows cm pd hdr 2 rows).1, (procRows cm pd hdr 2 rows).2,
        rows.length + 1, hdr, false⟩ := by
  unfold processCSVRows
  rw [List.foldl_cons]
  rw [show procStep cm pd ⟨[], [], 0, [], true⟩ hdr =
      ⟨[], [], 1, hdr, false⟩ from rfl]
  rw [foldl_procStep_run]
  simp only [List.nil_append, ProcState.mk.injEq]
  refine ⟨?_, ?_, ?_, ?_, ?_⟩ <;> first | trivial | omega

/-- A data row validating to a customer puts that customer in the output. -/
theorem procRows_customers_mem (cm : List (String × String))
    (pd : String → Option String) (hdr : List String) :
    ∀ (rows : List (List String)) (n j : Nat) (c : CustomerData),
      j < rows.length →
        processRow cm pd hdr (rows.getD j []) (n + j) = .inr c →
          c ∈ (procRows cm pd hdr n rows).1 := by
  intro rows
  induction rows with
  | nil => intro n j c hj; simp at hj
  | cons r rs ih =>
    intro n j c hj hp
    cases j with
    | zero =>
      simp only [List.getD_cons_zero, Nat.add_zero] at hp
      simp only [procRows, hp]
      exact List.mem_cons_self _ _
    | succ j' =>
      have hj' : j' < rs.length := by simpa using hj
      have hp' : processRow cm pd hdr (rs.getD j' []) (n + 1 + j') = .inr c := by
        rw [show n + 1 + j' = n + (j' + 1) by omega]
        simpa using hp
      have hmem := ih (n + 1) j' c hj' hp'
      cases hr0 : processRow cm pd hdr r n with
      | inl e => simpa [procRows, hr0] using hmem
      | inr c0 =>
        simp only [procRows, hr0]
        exact List.mem_cons_of_mem _ hmem

/-- A data row failing validation puts its error entry in the output. -/
theorem procRows_errors_mem (cm : List (String × String))
    (pd : String → Option String) (hdr : List String) :
    ∀ (rows : List (List String)) (n j : Nat) (e : RowError),
      j < rows.length →
        processRow cm pd hdr (rows.getD j []) (n + j) = .inl e →
          e ∈ (procRows cm pd hdr n rows).2 := by
  intro rows
  induction rows with
  | nil => intro n j e hj; simp at hj
  | cons r rs ih =>
    intro n j e hj hp
    cases j with
    | zero =>
      simp only [List.getD_cons_zero, Nat.add_zero] at hp
      simp only [procRows, hp]
      exact List.mem_cons_self _ _
    | succ j' =>
      have hj' : j' < rs.length := by simpa using hj
      have hp' : processRow cm pd hdr (rs.getD j' []) (n + 1 + j') = .inl e := by
        rw [show n + 1 + j' = n + (j' + 1) by omega]
        simpa using hp
      have hmem := ih (n + 1) j' e hj' hp'
      cases hr0 : processRow cm pd hdr r n with
      | inl e0 =>
        simp only [procRows, hr0]
        exact List.mem_cons_of_mem _ hmem
      | inr c0 => simpa [procRows, hr0] using hmem

/-- Every output customer comes from some data row that validated to it. -/
theorem procRows_customers_src (cm : List (String × String))
    (pd : String → Option String) (hdr : List String) :
    ∀ (rows : List (List String)) (n : Nat) (c : CustomerData),
      c ∈ (procRows cm pd hdr n rows).1 →
        ∃ j, j < rows.length ∧
          processRow cm pd hdr (rows.getD j []) (n + j) = .inr c := by
  intro rows
  induction rows with
  | nil => intro n c hc; simp [procRows] at hc
  | cons r rs ih =>
    intro n c hc
    cases hr0 : processRow cm pd hdr r n with
    | inl e =>
      rw [procRows] at hc
      simp only [hr0] at hc
      obtain ⟨j, hj, hp⟩ := ih (n + 1) c hc
      refine ⟨j + 1, by simpa using Nat.succ_lt_succ hj, ?_⟩
      rw [show n + (j + 1) = n + 1 + j by omega]
      simpa using hp
    | inr c0 =>
      rw [procRows] at hc
      simp only [hr0, List.mem_cons] at hc
      rcases hc with rfl | hc
      · exact ⟨0, by simp, by simpa using hr0⟩
      · obtain ⟨j, hj, hp⟩ := ih (n + 1) c hc
        refine ⟨j + 1, by simpa using Nat.succ_lt_succ hj, ?_⟩
        rw [show n + (j + 1) = n + 1 + j by omega]
        simpa using hp

/-- The batches of a list carry all of its elements, in total length. -/
theorem toBatches_sum_length_aux :
    ∀ (fuel : Nat) (l : List CustomerData), l.length ≤ fuel →
      ((toBatches l).map List.length).sum = l.length := by
  intro fuel
  induction fuel with
  | zero =>
    intro l hl
    have : l = [] := List.length_eq_zero.mp (Nat.le_zero.mp hl)
    subst this
    simp [toBatches]
  | succ fuel ih =>
    intro l hl
    by_cases h : l = []
    · subst h; simp [toBatches]
    · rw [toBatches, dif_neg h]
      have hpos : 0 < l.length := List.length_pos.mpr h
      have hrec : (l.drop 100).length ≤ fuel := by
        simp only [List.length_drop]
        omega
      rw [List.map_cons, List.sum_cons, ih _ hrec]
      simp only [List.length_take, List.length_drop]
      omega

/-- Total length of the batches equals the number of customers. -/
theorem toBatches_sum_length (l : List CustomerData) :
    ((toBatches l).map List.length).sum = l.length :=
  toBatches_sum_length_aux l.length l (Nat.le_refl _)

/-- `insertedCount` equals the number of customers in the successful batch
writes. -/
theorem runInserts_eq_insertedTotal (f : Nat → Option String) :
    ∀ (bs : List (List CustomerData)) (start : Nat),
      (runInserts f bs start).1 = insertedTotal (insertWrites f bs start) := by
  intro bs
  induction bs with
  | nil => intro s; rfl
  | cons b bs ih =>
    intro s
    cases hf : f s with
    | none => simp [runInserts, insertWrites, hf, insertedTotal, ih]
    | some msg => simp [runInserts, insertWrites, hf, insertedTotal, ih]

/-- With no insert failures, every batch is inserted and no database error is
recorded. -/
theorem runInserts_all_ok (f : Nat → Option String) (hf : ∀ i, f i = none) :
    ∀ (bs : List (List CustomerData)) (start : Nat),
      (runInserts f bs start).1 = (bs.map List.length).sum ∧
        (runInserts f bs start).2 = [] := by
  intro bs
  induction bs with
  | nil => intro s; simp [runInserts]
  | cons b bs ih =>
    intro s
    have := ih (s + 100)
    simp [runInserts, hf s, this.1, this.2]

/-- `insertedTotal` distributes over append. -/
theorem insertedTotal_append :
    ∀ (l1 l2 : List DbWrite),
      insertedTotal (l1 ++ l2) = insertedTotal l1 + insertedTotal l2 := by
  intro l1
  induction l1 with
  | nil => intro l2; simp [insertedTotal]
  | cons w ws ih =>
    intro l2
    cases w <;> simp [insertedTotal, ih] <;> omega

/-! ## Claim theorems -/

/-- Claim C1: for every message whose delivery fails, the system retries
sending it up to 3 times, with backoff delays of 1, 5 and 15 minutes before
the first, second and third retry respectively; `retry_count` never exceeds 3,
and after the third failed retry the message stays failed and is not retried
again. -/
theorem c1_retry_backoff :
    (∀ m : RetryMsg, m.retry_count ≤ 3 →
        (onDeliveryFailure m).1.retry_count ≤ 3) ∧
    (∀ n : Nat, (failuresTrace n).2 = [1, 5, 15].take n ∧
        (failuresTrace n).1.retry_count = min n 3) ∧
    (∀ n : Nat, 4 ≤ n → (failuresTrace n).1.deliveryStatus = "failed" ∧
        (failuresTrace n).1.retry_count = 3 ∧
        (onDeliveryFailure (failuresTrace n).1).2 = none) := by
  refine ⟨?_, ?_, ?_⟩
  · intro m hm
    rcases m with ⟨s, n⟩
    rcases n with _ | _ | _ | k
    · simp [onDeliveryFailure, retryBackoffMinutes]
    · simp [onDeliveryFailure, retryBackoffMinutes]
    · simp [onDeliveryFailure, retryBackoffMinutes]
    · simpa [onDeliveryFailure, retryBackoffMinutes] using hm
  · intro n
    rcases n with _ | _ | _ | _ | k
    · decide
    · decide
    · decide
    · decide
    · rw [show k + 1 + 1 + 1 + 1 = k + 4 by omega, failuresTrace_stuck]
      constructor
      · rw [List.take_of_length_le (by simp)]
      · simp only [RetryMsg.mk.injEq]
        omega
  · intro n hn
    obtain ⟨k, rfl⟩ : ∃ k, n = k + 4 := ⟨n - 4, by omega⟩
    rw [failuresTrace_stuck]
    exact ⟨rfl, rfl, rfl⟩

/-- Witness for C1 at a concrete message and failure count. -/
theorem c1_retry_backoff_witness :
    (onDeliveryFailure ⟨"queued", 2⟩).1.retry_count ≤ 3 ∧
    (failuresTrace 5).1.deliveryStatus = "failed" ∧
    (failuresTrace 5).1.retry_count = 3 ∧
    (onDeliveryFailure (failuresTrace 5).1).2 = none :=
  ⟨c1_retry_backoff.1 ⟨"queued", 2⟩ (by decide),
    c1_retry_backoff.2.2 5 (by decide)⟩

/-- Claim C3: a campaign's status is always one of draft, scheduled, active,
paused, completed, cancelled (the CHECK constraint holds along any sequence
of campaigns writes), and the lifecycle actions are offered exactly as gated:
start only on draft/scheduled, pause only on active, resume only on paused,
stop only on active/paused. -/
theorem c3_campaign_status_gating :
    (∀ (ops : List CampaignsOp) (r : CampaignRow),
        r ∈ ops.foldl applyCampaignsOp [] →
          r.campStatus = "draft" ∨ r.campStatus = "scheduled" ∨
            r.campStatus = "active" ∨ r.campStatus = "paused" ∨
              r.campStatus = "completed" ∨ r.campStatus = "cancelled") ∧
    (∀ s : String,
        ("start" ∈ offeredActions s ↔ s = "draft" ∨ s = "scheduled") ∧
        ("pause" ∈ offeredActions s ↔ s = "active") ∧
        ("resume" ∈ offeredActions s ↔ s = "paused") ∧
        ("stop" ∈ offeredActions s ↔ s = "active" ∨ s = "paused")) := by
  constructor
  · intro ops r hr
    have h := campaignsFold_inv ops [] (by intro x hx; simp at hx) r hr
    simpa [campaignStatusOk, campaignStatuses] using h
  · intro s
    by_cases h1 : s = "draft"
    · subst h1; refine ⟨?_, ?_, ?_, ?_⟩ <;> decide
    · by_cases h2 : s = "scheduled"
      · subst h2; refine ⟨?_, ?_, ?_, ?_⟩ <;> decide
      · by_cases h3 : s = "active"
        · subst h3; refine ⟨?_, ?_, ?_, ?_⟩ <;> decide
        · by_cases h4 : s = "paused"
          · subst h4; refine ⟨?_, ?_, ?_, ?_⟩ <;> decide
          · refine ⟨?_, ?_, ?_, ?_⟩ <;>
              simp [offeredActions, canStart, canPause, canResume, canStop,
                h1, h2, h3, h4]

/-- Witness for C3 at a concrete write sequence and row. -/
theorem c3_campaign_status_gating_witness :
    ((⟨"active", "email"⟩ : CampaignRow).campStatus = "draft" ∨
      (⟨"active", "email"⟩ : CampaignRow).campStatus = "scheduled" ∨
        (⟨"active", "email"⟩ : CampaignRow).campStatus = "active" ∨
          (⟨"active", "email"⟩ : CampaignRow).campStatus = "paused" ∨
            (⟨"active", "email"⟩ : CampaignRow).campStatus = "completed" ∨
              (⟨"active", "email"⟩ : CampaignRow).campStatus = "cancelled") ∧
    ("pause" ∈ offeredActions "active" ↔ "active" = "active") :=
  ⟨c3_campaign_status_gating.1 [.insertRow ⟨"active", "email"⟩]
      ⟨"active", "email"⟩ (by decide),
    (c3_campaign_status_gating.2 "active").2.1⟩

/-- Claim C4 counterexample: the schema leaves `events.message_id` nullable,
so an events row keyed to no message at all is accepted; with an empty
messages table the inserted row's `message_id` references no messages row. -/
theorem c4_counterexample :
    (applyDbOp ⟨[], []⟩ (.insertEvent none "sent")).events = [⟨none, "sent"⟩] ∧
    ¬ (∀ e ∈ (applyDbOp ⟨[], []⟩ (.insertEvent none "sent")).events,
        ∃ m ∈ (applyDbOp ⟨[], []⟩ (.insertEvent none "sent")).msgs,
          e.message_id = some m) := by
  decide

/-- Claim C4 (amended): every events row's `message_id` is either NULL or
references an existing messages row, and deleting a message cascade-deletes
that message's event rows, so no events row is ever left referencing a
deleted message. -/
theorem c4_events_fk_amended (ops : List DbOp) :
    (∀ e ∈ (ops.foldl applyDbOp ⟨[], []⟩).events, ∀ m : Nat,
        e.message_id = some m → m ∈ (ops.foldl applyDbOp ⟨[], []⟩).msgs) ∧
    (∀ mdel : Nat,
        ∀ e ∈ (applyDbOp (ops.foldl applyDbOp ⟨[], []⟩)
            (.deleteMessage mdel)).events,
          e.message_id ≠ some mdel) := by
  constructor
  · exact dbFold_fk ops ⟨[], []⟩ (by intro e he; simp at he)
  · intro mdel e he
    simp only [applyDbOp, List.mem_filter] at he
    simpa using he.2

/-- Witness for C4 (amended) at a concrete write sequence. -/
theorem c4_events_fk_amended_witness :
    (1 : Nat) ∈
      ([DbOp.insertMessage 1, DbOp.insertEvent (some 1) "sent"].foldl
          applyDbOp ⟨[], []⟩).msgs ∧
    (⟨some 1, "sent"⟩ : EventRow).message_id ≠ some 2 :=
  ⟨(c4_events_fk_amended [DbOp.insertMessage 1, DbOp.insertEvent (some 1) "sent"]).1
      ⟨some 1, "sent"⟩ (by decide) 1 (by decide),
    (c4_events_fk_amended [DbOp.insertMessage 1, DbOp.insertEvent (some 1) "sent"]).2
      2 ⟨some 1, "sent"⟩ (by decide)⟩

/-- Claim C5: every reviews row's rating is an integer in 1..5; an insert or
update that would set a rating outside 1..5 is rejected and leaves the table
unchanged. -/
theorem c5_rating_check :
    (∀ (t : List ReviewRow) (r : ReviewRow), ratingOk r.rating = false →
        insertReview t r = .error "reviews_rating_check" ∧
          applyReviewOp t (.ins r) = t) ∧
    (∀ (t : List ReviewRow) (i : Nat) (v : Int), i < t.length →
        ratingOk v = false →
          updateRating t i v = .error "reviews_rating_check" ∧
            applyReviewOp t (.upd i v) = t) ∧
    (∀ (ops : List ReviewOp) (r : ReviewRow), r ∈ ops.foldl applyReviewOp [] →
        1 ≤ r.rating ∧ r.rating ≤ 5) := by
  refine ⟨?_, ?_, ?_⟩
  · intro t r h
    constructor
    · simp [insertReview, h]
    · simp [applyReviewOp, insertReview, h]
  · intro t i v hi h
    constructor
    · simp [updateRating, hi, h]
    · simp [applyReviewOp, updateRating, hi, h]
  · intro ops r hr
    exact reviewsFold_inv ops [] (by intro x hx; simp at hx) r hr

/-- Witness for C5 at a concrete table, rating 6 and a concrete write
sequence. -/
theorem c5_rating_check_witness :
    (insertReview [] ⟨6, none⟩ = .error "reviews_rating_check" ∧
      applyReviewOp [] (.ins ⟨6, none⟩) = []) ∧
    (updateRating [⟨3, none⟩] 0 0 = .error "reviews_rating_check" ∧
      applyReviewOp [⟨3, none⟩] (.upd 0 0) = [⟨3, none⟩]) ∧
    (1 ≤ (⟨5, none⟩ : ReviewRow).rating ∧ (⟨5, none⟩ : ReviewRow).rating ≤ 5) :=
  ⟨c5_rating_check.1 [] ⟨6, none⟩ (by decide),
    c5_rating_check.2.1 [⟨3, none⟩] 0 0 (by decide) (by decide),
    c5_rating_check.2.2 [.ins ⟨5, none⟩] ⟨5, none⟩ (by decide)⟩

/-- Claim C7: the campaign proxy routes forward to the backend and return a
non-OK backend response's body with the backend's status code unchanged, and
return status 500 with a fixed failure message when the forwarding fetch
throws. -/
theorem c7_proxy_passthrough :
    (∀ (req : ProxyRequest) (code : Nat) (b : String), statusOk code = false →
        pauseRoutePOST req (.responded code (some b)) = (code, b)) ∧
    (∀ req : ProxyRequest,
        pauseRoutePOST req .threw = (500, "Failed to pause campaign")) ∧
    (∀ (req : ProxyRequest) (code : Nat) (b : String), statusOk code = false →
        messagesRouteGET req (.responded code (some b)) = (code, b)) ∧
    (∀ req : ProxyRequest,
        messagesRouteGET req .threw =
          (500, "Failed to fetch campaign messages")) := by
  refine ⟨?_, ?_, ?_, ?_⟩
  · intro req code b h; simp [pauseRoutePOST, h]
  · intro req; rfl
  · intro req code b h; simp [messagesRouteGET, h]
  · intro req; rfl

/-- Witness for C7 at a concrete backend 404 response. -/
theorem c7_proxy_passthrough_witness :
    pauseRoutePOST ⟨none, ""⟩ (.responded 404 (some "detail")) =
        (404, "detail") ∧
    messagesRouteGET ⟨none, ""⟩ (.responded 422 (some "invalid")) =
        (422, "invalid") :=
  ⟨c7_proxy_passthrough.1 ⟨none, ""⟩ 404 "detail" (by decide),
    c7_proxy_passthrough.2.2.1 ⟨none, ""⟩ 422 "invalid" (by decide)⟩

/-- `getLast?` of a cons onto a list ending in a given element. -/
theorem getLast_cons_concat {α : Type} (x : α) (l : List α) (a : α) :
    (x :: (l ++ [a])).getLast? = some a := by
  rw [← List.cons_append, List.getLast?_concat]

/-- With all its guards satisfied, the process handler runs the CSV body. -/
theorem processHandler_success
    (req : ProcessRequest) (rows : List (List String))
    (pd : String → Option String) (insertFail : Nat → Option String)
    (hm : req.method = "POST") (hid : req.hasValidId = true)
    (h : String) (hah : req.authHeader = some h)
    (hb : jsStartsWith h "Bearer " = true) (htok : req.tokenValid = true)
    (horg : req.orgId ≠ none) (job : UploadJobRec)
    (hjob : req.fetchedJob = some job) (hpend : job.jobStatus = "pending")
    (cm : List (String × String)) (hcm : req.columnMappingField = some cm)
    (hparse : req.csvParseFails = false) :
    processHandler req rows pd insertFail = processBody cm rows pd insertFail := by
  simp [processHandler, hm, hid, hah, hb, htok, horg, hjob, hpend, hcm, hparse]

/-- Claim C8: on the success path, the final upload-job update sets status
`failed` exactly when at least one error was recorded and zero customers were
inserted, and `completed` otherwise; its `total_rows` is the number of CSV
rows read minus one, and its `processed_rows` is the number of customers
actually inserted (the customers carried by the successful batch writes). -/
theorem c8_process_finalize
    (req : ProcessRequest) (rows : List (List String))
    (pd : String → Option String) (insertFail : Nat → Option String)
    (hm : req.method = "POST") (hid : req.hasValidId = true)
    (h : String) (hah : req.authHeader = some h)
    (hb : jsStartsWith h "Bearer " = true) (htok : req.tokenValid = true)
    (horg : req.orgId ≠ none) (job : UploadJobRec)
    (hjob : req.fetchedJob = some job) (hpend : job.jobStatus = "pending")
    (cm : List (String × String)) (hcm : req.columnMappingField = some cm)
    (hparse : req.csvParseFails = false) :
    ∃ (stat : String) (proc : Nat) (errs : Option (List RowError)),
      (processHandler req rows pd insertFail).1 = (200, "ok") ∧
      (processHandler req rows pd insertFail).2.getLast? =
        some (.finalizeJob stat ((rows.length : Int) - 1) proc errs) ∧
      proc = insertedTotal (processHandler req rows pd insertFail).2 ∧
      (stat = "failed" ↔ errs ≠ none ∧ proc = 0) ∧
      (¬ (errs ≠ none ∧ proc = 0) → stat = "completed") ∧
      ((∀ b, insertFail b = none) →
        proc = (processCSVRows cm pd rows).customers.length) := by
  rw [processHandler_success req rows pd insertFail hm hid h hah hb htok horg
    job hjob hpend cm hcm hparse]
  simp only [processBody]
  set st := processCSVRows cm pd rows with hst
  set ins := runInserts insertFail (toBatches st.customers) 0 with hins
  set allE := st.errors ++ ins.2 with hallE
  refine ⟨if allE ≠ [] ∧ ins.1 = 0 then "failed" else "completed", ins.1,
    if allE ≠ [] then some allE else none, ?_, ?_, ?_, ?_, ?_, ?_⟩
  · trivial
  · rw [getLast_cons_concat]
    rw [hst, processCSVRows_totalRows]
  · simp [insertedTotal, insertedTotal_append, hins, runInserts_eq_insertedTotal]
  · by_cases hA : allE = [] <;> by_cases hI : ins.1 = 0 <;> simp [hA, hI]
  · by_cases hA : allE = [] <;> by_cases hI : ins.1 = 0 <;> simp [hA, hI]
  · intro hall
    have hok := runInserts_all_ok insertFail hall (toBatches st.customers) 0
    rw [hins, hok.1, toBatches_sum_length]

/-- Claim C2: when a CSV job is processed with a mapping that maps a column to
the email field, every data row that reaches the email-format check (its name
requirement satisfied) with an email value failing the check yields a
row-level error entry with that row's number and the invalid-email error, and
that row contributes no customer; rows that pass validation are imported. -/
theorem c2_invalid_email
    (cm : List (String × String)) (pd : String → Option String)
    (hdr : List String) (rows : List (List String)) (i : Nat) (e : String)
    (hi : i < rows.length)
    (hreq : (buildCustomer cm hdr (rows.getD i [])).2 = true)
    (hname : (buildCustomer cm hdr (rows.getD i [])).1.name ≠ none)
    (hemail : (buildCustomer cm hdr (rows.getD i [])).1.email = some e)
    (hbad : emailRegexTest e = false) :
    (⟨i + 2, "Invalid email format"⟩ : RowError) ∈
        (processCSVRows cm pd (hdr :: rows)).errors ∧
    (∀ c ∈ (processCSVRows cm pd (hdr :: rows)).customers,
        ∃ j, j < rows.length ∧ j ≠ i ∧
          processRow cm pd hdr (rows.getD j []) (j + 2) = .inr c) ∧
    (∀ j, j < rows.length → ∀ c,
        processRow cm pd hdr (rows.getD j []) (j + 2) = .inr c →
          c ∈ (processCSVRows cm pd (hdr :: rows)).customers) := by
  have hrow : processRow cm pd hdr (rows.getD i []) (i + 2) =
      .inl ⟨i + 2, "Invalid email format"⟩ := by
    have hguard : ¬((buildCustomer cm hdr (rows.getD i [])).2 = false ∨
        (buildCustomer cm hdr (rows.getD i [])).1.name = none) := by
      rintro (hfalse | hnone)
      · rw [hreq] at hfalse
        exact absurd hfalse (by decide)
      · exact hname hnone
    simp only [processRow]
    rw [if_neg hguard, hemail]
    simp [hbad]
  rw [processCSVRows_cons]
  refine ⟨?_, ?_, ?_⟩
  · have hrow' : processRow cm pd hdr (rows.getD i []) (2 + i) =
        .inl ⟨i + 2, "Invalid email format"⟩ := by
      rw [Nat.add_comm 2 i]; exact hrow
    exact procRows_errors_mem cm pd hdr rows 2 i _ hi hrow'
  · intro c hc
    obtain ⟨j, hj, hp⟩ := procRows_customers_src cm pd hdr rows 2 c hc
    have hp' : processRow cm pd hdr (rows.getD j []) (j + 2) = .inr c := by
      rw [Nat.add_comm j 2]; exact hp
    refine ⟨j, hj, ?_, hp'⟩
    intro hji
    subst hji
    rw [hrow] at hp'
    simp at hp'
  · intro j hj c hp
    have hp' : processRow cm pd hdr (rows.getD j []) (2 + j) = .inr c := by
      rw [Nat.add_comm 2 j]; exact hp
    exact procRows_customers_mem cm pd hdr rows 2 j c hj hp'

/-- Witness for C2 at a concrete mapping, header and rows: the first data row
has an invalid email, the second is valid. -/
theorem c2_invalid_email_witness :
    (⟨2, "Invalid email format"⟩ : RowError) ∈
        (processCSVRows [("Name", "name"), ("Email", "email")] (fun _ => none)
          (["Name", "Email"] :: [["Alice", "bademail"], ["Bob", "bob@x.com"]])).errors ∧
    (∀ c ∈ (processCSVRows [("Name", "name"), ("Email", "email")] (fun _ => none)
        (["Name", "Email"] :: [["Alice", "bademail"], ["Bob", "bob@x.com"]])).customers,
        ∃ j, j < ([["Alice", "bademail"], ["Bob", "bob@x.com"]] : List (List String)).length ∧
          j ≠ 0 ∧
          processRow [("Name", "name"), ("Email", "email")] (fun _ => none)
            ["Name", "Email"]
            ([["Alice", "bademail"], ["Bob", "bob@x.com"]].getD j []) (j + 2) = .inr c) ∧
    (∀ j, j < ([["Alice", "bademail"], ["Bob", "bob@x.com"]] : List (List String)).length →
        ∀ c, processRow [("Name", "name"), ("Email", "email")] (fun _ => none)
            ["Name", "Email"]
            ([["Alice", "bademail"], ["Bob", "bob@x.com"]].getD j []) (j + 2) = .inr c →
          c ∈ (processCSVRows [("Name", "name"), ("Email", "email")] (fun _ => none)
            (["Name", "Email"] :: [["Alice", "bademail"], ["Bob", "bob@x.com"]])).customers) :=
  c2_invalid_email [("Name", "name"), ("Email", "email")] (fun _ => none)
    ["Name", "Email"] [["Alice", "bademail"], ["Bob", "bob@x.com"]] 0 "bademail"
    (by decide) (by decide) (by decide) (by decide) (by decide)

/-- Witness for C8 at a concrete request with one header and one data row. -/
theorem c8_process_finalize_witness :
    ∃ (stat : String) (proc : Nat) (errs : Option (List RowError)),
      (processHandler
          ⟨"POST", true, some "Bearer t", true, some "org", some ⟨"pending"⟩,
            some [("Name", "name")], false⟩
          [["Name"], ["Alice"]] (fun _ : String => (none : Option String)) (fun _ : Nat => (none : Option String))).1 = (200, "ok") ∧
      (processHandler
          ⟨"POST", true, some "Bearer t", true, some "org", some ⟨"pending"⟩,
            some [("Name", "name")], false⟩
          [["Name"], ["Alice"]] (fun _ : String => (none : Option String)) (fun _ : Nat => (none : Option String))).2.getLast? =
        some (.finalizeJob stat
          ((([["Name"], ["Alice"]] : List (List String)).length : Int) - 1)
          proc errs) ∧
      proc = insertedTotal (processHandler
          ⟨"POST", true, some "Bearer t", true, some "org", some ⟨"pending"⟩,
            some [("Name", "name")], false⟩
          [["Name"], ["Alice"]] (fun _ : String => (none : Option String)) (fun _ : Nat => (none : Option String))).2 ∧
      (stat = "failed" ↔ errs ≠ none ∧ proc = 0) ∧
      (¬ (errs ≠ none ∧ proc = 0) → stat = "completed") ∧
      ((∀ b, (fun _ : Nat => (none : Option String)) b = none) →
        proc = (processCSVRows [("Name", "name")]
          (fun _ : String => (none : Option String))
          [["Name"], ["Alice"]]).customers.length) :=
  c8_process_finalize
    ⟨"POST", true, some "Bearer t", true, some "org", some ⟨"pending"⟩,
      some [("Name", "name")], false⟩
    [["Name"], ["Alice"]] (fun _ : String => (none : Option String))
    (fun _ : Nat => (none : Option String))
    rfl rfl "Bearer t" rfl (by decide) rfl (by decide) ⟨"pending"⟩ rfl rfl
    [("Name", "name")] rfl rfl

/-- Claim C9: the upload endpoint creates every upload job with status
`uploaded`, while the process endpoint returns HTTP 400 for any job whose
status is not `pending`; hence a job created by the upload endpoint and
processed directly fails with 400 and nothing is written. -/
theorem c9_uploaded_never_pending :
    (∀ (req : UploadRequest) (p : CSVPreview) (j : CreatedJob),
        uploadHandlerPOST req = .success p j → j.jobStatus = "uploaded") ∧
    (∀ (req : ProcessRequest) (rows : List (List String))
        (pd : String → Option String) (f : Nat → Option String)
        (job : UploadJobRec) (h : String),
        req.method = "POST" → req.hasValidId = true →
        req.authHeader = some h → jsStartsWith h "Bearer " = true →
        req.tokenValid = true → req.orgId ≠ none →
        req.fetchedJob = some job → job.jobStatus = "uploaded" →
        processHandler req rows pd f =
          ((400, "Upload job already processed"), [])) := by
  constructor
  · intro req p j hs
    simp only [uploadHandlerPOST] at hs
    repeat' split at hs
    all_goals simp_all
    all_goals rw [← hs.2]
  · intro req rows pd f job h hm hid hah hb htok horg hjob hstat
    simp [processHandler, hm, hid, hah, hb, htok, horg, hjob, hstat]

/-- Witness for C9 at a concrete upload request and process request. -/
theorem c9_uploaded_never_pending_witness :
    (⟨"uploaded", 1, parseFields "Name"⟩ : CreatedJob).jobStatus = "uploaded" ∧
    processHandler
        ⟨"POST", true, some "Bearer t", true, some "org", some ⟨"uploaded"⟩,
          some [], false⟩
        [] (fun _ : String => (none : Option String))
        (fun _ : Nat => (none : Option String)) =
      ((400, "Upload job already processed"), []) :=
  ⟨c9_uploaded_never_pending.1
      ⟨some "Bearer t", true, some "org", some ("a.csv", "Name\nAlice"), false⟩
      ⟨parseFields "Name", [parseFields "Alice"], 1⟩
      ⟨"uploaded", 1, parseFields "Name"⟩ (by decide),
    c9_uploaded_never_pending.2
      ⟨"POST", true, some "Bearer t", true, some "org", some ⟨"uploaded"⟩,
        some [], false⟩
      [] (fun _ : String => (none : Option String))
      (fun _ : Nat => (none : Option String)) ⟨"uploaded"⟩ "Bearer t"
      rfl rfl rfl (by decide) rfl (by decide) rfl rfl⟩

/-- Claim C10: for a non-empty uploaded CSV file the preview's headers are the
parsed fields of the first retained line, its sample rows are at most the
first 5 data rows, and its `total_rows` is the number of non-blank lines
minus one; a file with no non-blank lines yields 400 and no upload job. -/
theorem c10_upload_preview
    (req : UploadRequest) (h fname content : String)
    (hah : req.authHeader = some h) (hb : jsStartsWith h "Bearer " = true)
    (htok : req.tokenValid = true) (horg : req.orgId ≠ none)
    (hfile : req.file = some (fname, content))
    (hcsv : jsEndsWith fname ".csv" = true)
    (hins : req.insertFails = false) :
    (splitLines content = [] →
        uploadHandlerPOST req = .failure 400 "CSV file is empty") ∧
    (∀ l0 ls, splitLines content = l0 :: ls →
        uploadHandlerPOST req =
          .success ⟨parseFields l0, (ls.take 5).map parseFields, ls.length⟩
            ⟨"uploaded", ls.length, parseFields l0⟩ ∧
        ((ls.take 5).map parseFields).length ≤ 5) := by
  constructor
  · intro hempty
    simp [uploadHandlerPOST, hah, hb, htok, horg, hfile, hcsv, hins, hempty]
  · intro l0 ls hsplit
    constructor
    · simp [uploadHandlerPOST, hah, hb, htok, horg, hfile, hcsv, hins, hsplit]
    · simp only [List.length_map, List.length_take]
      exact Nat.min_le_left _ _

/-- Witness for C10 at a concrete request with a two-line CSV file. -/
theorem c10_upload_preview_witness :
    uploadHandlerPOST
        ⟨some "Bearer t", true, some "org",
          some ("guests.csv", "Name,Email\nAlice,a@b.c\n"), false⟩ =
      .success
        ⟨parseFields "Name,Email",
          (["Alice,a@b.c"].take 5).map parseFields,
          (["Alice,a@b.c"] : List String).length⟩
        ⟨"uploaded", (["Alice,a@b.c"] : List String).length,
          parseFields "Name,Email"⟩ ∧
    (((["Alice,a@b.c"].take 5).map parseFields).length ≤ 5) :=
  (c10_upload_preview
      ⟨some "Bearer t", true, some "org",
        some ("guests.csv", "Name,Email\nAlice,a@b.c\n"), false⟩
      "Bearer t" "guests.csv" "Name,Email\nAlice,a@b.c\n"
      rfl (by decide) rfl (by decide) rfl (by decide) rfl).2
    "Name,Email" ["Alice,a@b.c"] (by decide)

/-- Claim C6 counterexample: the process handler answers a GET request with
status 405, which is none of 401/400/404/500; and the campaign pause proxy
route performs no token check, so a request without any authorization header
is forwarded and can answer 200 rather than 401. -/
theorem c6_counterexample :
    ((processHandler
          ⟨"GET", true, some "Bearer t", true, some "org", none, none, false⟩
          [] (fun _ : String => (none : Option String))
          (fun _ : Nat => (none : Option String))).1.1 = 405 ∧
      ¬ (405 = 401 ∨ 405 = 400 ∨ 405 = 404 ∨ 405 = 500)) ∧
    ((pauseRoutePOST ⟨none, ""⟩ (.responded 200 (some "paused"))).1 = 200 ∧
      (pauseRoutePOST ⟨none, ""⟩ (.responded 200 (some "paused"))).1 ≠ 401) := by
  decide

/-- Claim C6 (amended): the CSV upload and process handlers report failures
via 400, 401, 404, 405 or 500 and return 401 with no persisted write when the
Bearer token is missing or invalid; the campaign proxy routes perform no
token check and behave identically with or without an authorization header. -/
theorem c6_error_statuses_amended :
    (∀ (req : ProcessRequest) (rows : List (List String))
        (pd : String → Option String) (f : Nat → Option String),
        (processHandler req rows pd f).1.1 = 200 ∨
        (processHandler req rows pd f).1.1 = 400 ∨
        (processHandler req rows pd f).1.1 = 401 ∨
        (processHandler req rows pd f).1.1 = 404 ∨
        (processHandler req rows pd f).1.1 = 405 ∨
        (processHandler req rows pd f).1.1 = 500) ∧
    (∀ (req : UploadRequest) (code : Nat) (msg : String),
        uploadHandlerPOST req = .failure code msg →
          code = 400 ∨ code = 401 ∨ code = 500) ∧
    (∀ (req : ProcessRequest) (rows : List (List String))
        (pd : String → Option String) (f : Nat → Option String),
        req.method = "POST" → req.hasValidId = true →
        (req.authHeader = none ∨
          (∃ h, req.authHeader = some h ∧ jsStartsWith h "Bearer " = false) ∨
          req.tokenValid = false) →
        (processHandler req rows pd f).1.1 = 401 ∧
        (processHandler req rows pd f).2 = []) ∧
    (∀ req : UploadRequest,
        (req.authHeader = none ∨
          (∃ h, req.authHeader = some h ∧ jsStartsWith h "Bearer " = false) ∨
          req.tokenValid = false) →
        ∃ msg, uploadHandlerPOST req = .failure 401 msg) ∧
    (∀ (req : ProxyRequest) (be : BackendOutcome),
        pauseRoutePOST req be = pauseRoutePOST ⟨none, req.queryString⟩ be ∧
        messagesRouteGET req be = messagesRouteGET ⟨none, req.queryString⟩ be) := by
  refine ⟨?_, ?_, ?_, ?_, ?_⟩
  · intro req rows pd f
    unfold processHandler
    repeat' split
    all_goals simp [processBody]
  · intro req code msg hs
    simp only [uploadHandlerPOST] at hs
    repeat' split at hs
    all_goals simp_all
  · intro req rows pd f hm hid hcase
    rcases hcase with h0 | ⟨h, hh, hb⟩ | htok
    · simp [processHandler, hm, hid, h0]
    · simp [processHandler, hm, hid, hh, hb]
    · cases hha : req.authHeader with
      | none => simp [processHandler, hm, hid, hha]
      | some h =>
        by_cases hb : jsStartsWith h "Bearer " <;>
          simp [processHandler, hm, hid, hha, hb, htok]
  · intro req hcase
    rcases hcase with h0 | ⟨h, hh, hb⟩ | htok
    · exact ⟨"Unauthorized", by simp [uploadHandlerPOST, h0]⟩
    · exact ⟨"Unauthorized", by simp [uploadHandlerPOST, hh, hb]⟩
    · cases hha : req.authHeader with
      | none => exact ⟨"Unauthorized", by simp [uploadHandlerPOST, hha]⟩
      | some h =>
        by_cases hb : jsStartsWith h "Bearer "
        · exact ⟨"Invalid token", by simp [uploadHandlerPOST, hha, hb, htok]⟩
        · exact ⟨"Unauthorized", by simp [uploadHandlerPOST, hha, hb]⟩
  · intro req be
    exact ⟨rfl, rfl⟩

/-- Witness for C6 (amended) at a concrete tokenless process request. -/
theorem c6_error_statuses_amended_witness :
    (processHandler ⟨"POST", true, none, true, some "org", none, none, false⟩
        [] (fun _ : String => (none : Option String))
        (fun _ : Nat => (none : Option String))).1.1 = 401 ∧
    (processHandler ⟨"POST", true, none, true, some "org", none, none, false⟩
        [] (fun _ : String => (none : Option String))
        (fun _ : Nat => (none : Option String))).2 = [] :=
  c6_error_statuses_amended.2.2.1
    ⟨"POST", true, none, true, some "org", none, none, false⟩
    [] (fun _ : String => (none : Option String))
    (fun _ : Nat => (none : Option String)) rfl rfl (Or.inl rfl)

end ReviewReap
